import Mathlib

/-!
# Verification of the imgshrink compression pipeline

Shallow embedding of the compressor and api packages of virakt/imgshrink
(internal/compressor/compressor.go, jpeg.go, png.go and internal/api/api.go),
together with theorems settling the frozen claims about them.

Conventions of the embedding:
* Go `int`/`int64` values are modelled as `Int` (no arithmetic here comes
  close to overflow), Go `float64` arithmetic is modelled exactly over `ℚ`,
  and Go's float-to-integer conversion `int(x)` / `int64(x)` (truncation
  toward zero) is `goTrunc`.
* Paths are slash-separated strings; the Go standard library path helpers
  used by the code (`filepath.Dir`, `filepath.Ext`, `filepath.Base`,
  `filepath.Join`, `strings.TrimSuffix`, `strings.ToLower`) are embedded
  below for the Unix separator, with `filepath.Clean` realised by the
  standard component-stack formulation of its lexical algorithm.
* The filesystem and the image codecs are external collaborators: one
  file's interactions with them are an `FsEnv` record of step outcomes
  (`none` / `false` marking the corresponding Go error), and a decoded
  pixel grid is the abstract `GoImage`, where `imaging.Resize` (an opaque
  resampling capability) is the constructor `GoImage.resampled`.
-/

/-- Go's truncation toward zero when converting a `float64` to an integer
type, on the exact rational model of the float value. -/
def goTrunc (q : ℚ) : Int :=
  if 0 ≤ q then ⌊q⌋ else ⌈q⌉

/-- Go's `strings.ToLower`, restricted to the ASCII data that reaches it here
(file extensions). -/
def stringsToLower (s : String) : String :=
  String.mk (s.data.map Char.toLower)

/-- Go's `strings.TrimSuffix s suffix`: drop one trailing occurrence of
`suffix` when present. -/
def stringsTrimSuffix (s suf : String) : String :=
  if s.endsWith suf then String.mk (s.data.take (s.length - suf.length)) else s

/-- Go's `filepath.Ext`: the suffix beginning at the final dot in the final
element of the path, empty when that element has no dot.  The Go loop
scans from the end of the string and stops at the first separator. -/
def filepathExt (path : String) : String :=
  let afterSlashRev := path.data.reverse.takeWhile (fun c => c ≠ '/')
  if afterSlashRev.contains '.' then
    String.mk ((afterSlashRev.takeWhile (fun c => c ≠ '.') ++ ['.']).reverse)
  else String.mk []

/-- Go's `filepath.Base`: the last element of the path after trailing slashes
are removed; `"."` for the empty path, `"/"` when the path is all
slashes. -/
def filepathBase (path : String) : String :=
  if path = String.mk [] then String.mk ['.']
  else
    let stripped := (path.data.reverse.dropWhile (fun c => c = '/')).reverse
    if stripped = [] then String.mk ['/']
    else String.mk ((stripped.reverse.takeWhile (fun c => c ≠ '/')).reverse)

/-- The component-stack loop of `filepath.Clean`'s lexical algorithm:
empty and `"."` components vanish, `".."` pops a non-`".."` entry (or
vanishes at the root of a rooted path), everything else is pushed. -/
def cleanLoop (rooted : Bool) : List String → List String → List String
  | [], stack => stack.reverse
  | c :: rest, stack =>
    if c = String.mk [] ∨ c = String.mk ['.'] then cleanLoop rooted rest stack
    else if c = String.mk ['.', '.'] then
      match stack with
      | [] => if rooted then cleanLoop rooted rest [] else cleanLoop rooted rest [c]
      | top :: tl =>
        if top = String.mk ['.', '.'] then cleanLoop rooted rest (c :: top :: tl)
        else cleanLoop rooted rest tl
    else cleanLoop rooted rest (c :: stack)

/-- Go's `filepath.Clean` for the Unix separator. -/
def filepathClean (path : String) : String :=
  if path = String.mk [] then String.mk ['.']
  else
    let rooted := path.startsWith (String.mk ['/'])
    let body := String.intercalate (String.mk ['/']) (cleanLoop rooted (path.splitOn (String.mk ['/'])) [])
    if rooted then
      if body = String.mk [] then String.mk ['/'] else String.mk ['/'] ++ body
    else
      if body = String.mk [] then String.mk ['.'] else body

/-- Go's `filepath.Join`: the non-empty elements joined by the separator and
lexically cleaned; empty when every element is empty.  (Go joins from the
first non-empty element onward; later empty elements only introduce
double separators that `Clean` removes, so filtering them is
observationally the same.) -/
def filepathJoin (elems : List String) : String :=
  match elems.filter (fun e => e ≠ String.mk []) with
  | [] => String.mk []
  | es => filepathClean (String.intercalate (String.mk ['/']) es)

/-- Go's `filepath.Dir`: everything up to and including the final separator,
cleaned; `"."` when the path has no separator. -/
def filepathDir (path : String) : String :=
  filepathClean (String.mk ((path.data.reverse.dropWhile (fun c => c ≠ '/')).reverse))

/-- compressor.ImageFormat: the supported formats. -/
inductive ImageFormat where
  | jpeg
  | png
deriving DecidableEq

/-- compressor.CompressionOptions (compressor.go). -/
structure CompressionOptions where
  Quality : Int
  ResizePercent : ℚ
  ResizeWidth : Int
  ResizeHeight : Int
  StripMetadata : Bool
  OutputDir : String
  OutputSuffix : String
  Progressive : Bool
  ChromaSubsample : String
  CompressionLevel : Int
  Interlaced : Bool
deriving DecidableEq

/-- compressor.DefaultOptions. -/
def DefaultOptions : CompressionOptions where
  Quality := 85
  ResizePercent := 0
  ResizeWidth := 0
  ResizeHeight := 0
  StripMetadata := true
  OutputDir := String.mk []
  OutputSuffix := "_compressed"
  Progressive := true
  ChromaSubsample := "4:2:0"
  CompressionLevel := 6
  Interlaced := false

/-- A decoded pixel grid, abstracting the `image.Image` values the
pipeline moves around.  `decoded` is the grid as produced by
`imaging.Open`; `resampled` is the output of the opaque resampler
`imaging.Resize` invoked with the recorded target dimensions. -/
inductive GoImage where
  | decoded (width height : Int)
  | resampled (width height : Int)
deriving DecidableEq

/-- The width `img.Bounds().Dx()` of the grid. -/
def GoImage.width : GoImage → Int
  | .decoded w _ => w
  | .resampled w _ => w

/-- The height `img.Bounds().Dy()` of the grid. -/
def GoImage.height : GoImage → Int
  | .decoded _ h => h
  | .resampled _ h => h

/-- compressor.applyResize (jpeg.go, lines 123–153), shared by the JPEG
and PNG compressors.  A call to `imaging.Resize` is the constructor
`GoImage.resampled` applied to the computed target dimensions. -/
def applyResize (img : GoImage) (options : CompressionOptions) : GoImage :=
  let width := img.width
  let height := img.height
  if 0 < options.ResizePercent ∧ options.ResizePercent < 100 then
    GoImage.resampled (goTrunc ((width : ℚ) * options.ResizePercent / 100))
      (goTrunc ((height : ℚ) * options.ResizePercent / 100))
  else if 0 < options.ResizeWidth ∨ 0 < options.ResizeHeight then
    if options.ResizeWidth = 0 then
      GoImage.resampled
        (goTrunc ((width : ℚ) * ((options.ResizeHeight : ℚ) / (height : ℚ))))
        options.ResizeHeight
    else if options.ResizeHeight = 0 then
      GoImage.resampled options.ResizeWidth
        (goTrunc ((height : ℚ) * ((options.ResizeWidth : ℚ) / (width : ℚ))))
    else
      GoImage.resampled options.ResizeWidth options.ResizeHeight
  else img

/-- The target dimensions applyResize computes for a source grid. -/
def targetDims (w h : Int) (options : CompressionOptions) : Int × Int :=
  ((applyResize (GoImage.decoded w h) options).width,
   (applyResize (GoImage.decoded w h) options).height)

/-- The three-rule resize precedence in the words of the specification
(§4.2): percent in (0, 100) scales both axes (floored); else an explicit
axis set (non-zero, with at least one positive) is used exactly when both
are set and completes the other axis proportionally when one is; else the
source dimensions stand. -/
def resizeRuleSpec (w h : Int) (o : CompressionOptions) : Int × Int :=
  if 0 < o.ResizePercent ∧ o.ResizePercent < 100 then
    (⌊(w : ℚ) * o.ResizePercent / 100⌋, ⌊(h : ℚ) * o.ResizePercent / 100⌋)
  else if 0 < o.ResizeWidth ∨ 0 < o.ResizeHeight then
    if o.ResizeWidth ≠ 0 ∧ o.ResizeHeight ≠ 0 then (o.ResizeWidth, o.ResizeHeight)
    else if o.ResizeHeight = 0 then
      (o.ResizeWidth, ⌊(h : ℚ) * o.ResizeWidth / (w : ℚ)⌋)
    else
      (⌊(w : ℚ) * o.ResizeHeight / (h : ℚ)⌋, o.ResizeHeight)
  else (w, h)

/-- compressor.GetImageFormat (compressor.go): format from the
lower-cased file extension, or the error message the code builds. -/
def GetImageFormat (path : String) : Except String ImageFormat :=
  let ext := stringsToLower (filepathExt path)
  if ext = ".jpg" ∨ ext = ".jpeg" then Except.ok ImageFormat.jpeg
  else if ext = ".png" then Except.ok ImageFormat.png
  else Except.error ("unsupported image format: " ++ ext)

/-- compressor.CalculateReduction (compressor.go, lines 170–175). -/
def CalculateReduction (original compressed : Int) : ℚ :=
  if original = 0 then 0
  else (1 - (compressed : ℚ) / (original : ℚ)) * 100

/-- compressor.GenerateOutputPath (compressor.go, lines 143–153). -/
def GenerateOutputPath (inputPath : String) (options : CompressionOptions) : String :=
  let dir0 := filepathDir inputPath
  let dir := if options.OutputDir ≠ String.mk [] then options.OutputDir else dir0
  let ext := filepathExt inputPath
  let base := stringsTrimSuffix (filepathBase inputPath) ext
  filepathJoin [dir, base ++ options.OutputSuffix ++ ext]

/-- The output path in the words of the specification (§4.3): the
output directory when non-empty, otherwise the input file's directory,
joined with the input base name without its extension, the suffix, and
the original extension. -/
def outputPathSpec (inputPath : String) (o : CompressionOptions) : String :=
  let dir := if o.OutputDir = String.mk [] then filepathDir inputPath else o.OutputDir
  let ext := filepathExt inputPath
  let stem := stringsTrimSuffix (filepathBase inputPath) ext
  filepathJoin [dir, stem ++ o.OutputSuffix ++ ext]

/-- The resize factor both estimators share: `(percent/100)²` while a
percent resize is active, 1 otherwise (jpeg.go lines 112–116, png.go
lines 121–125). -/
def estimateResizeFactor (o : CompressionOptions) : ℚ :=
  if 0 < o.ResizePercent ∧ o.ResizePercent < 100 then
    (o.ResizePercent / 100) * (o.ResizePercent / 100)
  else 1

/-- The arithmetic core of JPEGCompressor.EstimateSize (jpeg.go, lines
99–120), applied to the stat-ed input size. -/
def jpegEstimateCore (size : Int) (o : CompressionOptions) : Int :=
  let qualityFactor : ℚ := (o.Quality : ℚ) / 100
  let baseRat : ℚ := 1 / 10 + qualityFactor * (4 / 10)
  goTrunc ((size : ℚ) * baseRat * estimateResizeFactor o)

/-- The arithmetic core of PNGCompressor.EstimateSize (png.go, lines
111–129), applied to the stat-ed input size. -/
def pngEstimateCore (size : Int) (o : CompressionOptions) : Int :=
  let compressionFactor : ℚ := 1 - (o.CompressionLevel : ℚ) * (5 / 100)
  goTrunc ((size : ℚ) * compressionFactor * estimateResizeFactor o)

/-- JPEGCompressor.EstimateSize over the outcome of GetImageInfo:
`none` models a stat/decode failure, which the code forwards as
`(0, err)`. -/
def jpegEstimateSize (info : Option Int) (o : CompressionOptions) : Except String Int :=
  match info with
  | none => Except.error "failed to get image info"
  | some size => Except.ok (jpegEstimateCore size o)

/-- PNGCompressor.EstimateSize over the outcome of GetImageInfo. -/
def pngEstimateSize (info : Option Int) (o : CompressionOptions) : Except String Int :=
  match info with
  | none => Except.error "failed to get image info"
  | some size => Except.ok (pngEstimateCore size o)

/-- The JPEG estimate in the words of the specification (§4.4):
input size × (0.1 + 0.4 × quality/100) × resizeAreaFactor, with
resizeAreaFactor = (percent/100)² when a percent resize is active and 1
otherwise, truncated to an integer byte count. -/
def jpegEstimateSpec (size : Int) (o : CompressionOptions) : Int :=
  let areaFactor : ℚ :=
    if 0 < o.ResizePercent ∧ o.ResizePercent < 100 then (o.ResizePercent / 100) ^ 2 else 1
  goTrunc ((size : ℚ) * (1 / 10 + (4 / 10) * ((o.Quality : ℚ) / 100)) * areaFactor)

/-- The PNG estimate in the words of the specification (§4.4):
input size × (1 − 0.05 × compressionLevel) × resizeAreaFactor. -/
def pngEstimateSpec (size : Int) (o : CompressionOptions) : Int :=
  let areaFactor : ℚ :=
    if 0 < o.ResizePercent ∧ o.ResizePercent < 100 then (o.ResizePercent / 100) ^ 2 else 1
  goTrunc ((size : ℚ) * (1 - (5 / 100) * (o.CompressionLevel : ℚ)) * areaFactor)

/-- compressor.CompressionResult (compressor.go).  `Error` is the Go
error pointer: `none` is nil.  Field values start at their Go zero
values, as in the literal `&CompressionResult{InputPath: ..., Success: false}`. -/
structure CompressionResult where
  InputPath : String
  OutputPath : String
  InputSize : Int
  OutputSize : Int
  Reduction : ℚ
  Width : Int
  Height : Int
  Success : Bool
  Error : Option String
deriving DecidableEq

/-- The zero-initialised result each Compress call starts from. -/
def initResult (inputPath : String) : CompressionResult where
  InputPath := inputPath
  OutputPath := String.mk []
  InputSize := 0
  OutputSize := 0
  Reduction := 0
  Width := 0
  Height := 0
  Success := false
  Error := none

/-- The outcomes of one file's interactions with the filesystem and the
codecs, the external collaborators of a single Compress run: `none` or
`false` marks the corresponding Go call returning an error. -/
structure FsEnv where
  statInput : Option Int
  decode : Option GoImage
  mkdirOk : Bool
  createOk : Bool
  encodeOk : Bool
  statOutput : Option Int

/-- The png.CompressionLevel tiers, in encoder order (png.go lines 70–80). -/
inductive PngLevel where
  | noCompression
  | bestSpeed
  | defaultCompression
  | bestCompression
deriving DecidableEq

/-- The coarse 0–9 → four-tier mapping the PNG encoder is configured
with (png.go, lines 71–80). -/
def pngCompressionLevel (level : Int) : PngLevel :=
  if level ≤ 0 then PngLevel.noCompression
  else if level ≤ 3 then PngLevel.bestSpeed
  else if level ≤ 6 then PngLevel.defaultCompression
  else PngLevel.bestCompression

/-- JPEGCompressor.Compress (jpeg.go, lines 21–91): stat, decode,
resize, output-path generation, directory creation (only when an output
directory is set), output-file creation, encode, output stat; each
failure returns the partially filled result with its error set. -/
def jpegCompress (env : FsEnv) (inputPath : String) (options : CompressionOptions) :
    CompressionResult :=
  let result := initResult inputPath
  match env.statInput with
  | none => { result with Error := some "failed to get input file info" }
  | some inSize =>
    let result := { result with InputSize := inSize }
    match env.decode with
    | none => { result with Error := some "failed to open image" }
    | some img0 =>
      let img := applyResize img0 options
      let result := { result with Width := img.width, Height := img.height }
      let result := { result with OutputPath := GenerateOutputPath inputPath options }
      if options.OutputDir ≠ String.mk [] ∧ env.mkdirOk = false then
        { result with Error := some "failed to create output directory" }
      else if env.createOk = false then
        { result with Error := some "failed to create output file" }
      else if env.encodeOk = false then
        { result with Error := some "failed to encode JPEG" }
      else
        match env.statOutput with
        | none => { result with Error := some "failed to get output file info" }
        | some outSize =>
          { result with
            OutputSize := outSize
            Reduction := CalculateReduction inSize outSize
            Success := true }

/-- PNGCompressor.Compress (png.go, lines 20–103): the same sequence as
the JPEG variant, with the encoder configured from the mapped
compression level. -/
def pngCompress (env : FsEnv) (inputPath : String) (options : CompressionOptions) :
    CompressionResult :=
  let result := initResult inputPath
  match env.statInput with
  | none => { result with Error := some "failed to get input file info" }
  | some inSize =>
    let result := { result with InputSize := inSize }
    match env.decode with
    | none => { result with Error := some "failed to open image" }
    | some img0 =>
      let img := applyResize img0 options
      let result := { result with Width := img.width, Height := img.height }
      let result := { result with OutputPath := GenerateOutputPath inputPath options }
      if options.OutputDir ≠ String.mk [] ∧ env.mkdirOk = false then
        { result with Error := some "failed to create output directory" }
      else if env.createOk = false then
        { result with Error := some "failed to create output file" }
      else
        let _ := pngCompressionLevel options.CompressionLevel
        if env.encodeOk = false then
          { result with Error := some "failed to encode PNG" }
        else
          match env.statOutput with
          | none => { result with Error := some "failed to get output file info" }
          | some outSize =>
            { result with
              OutputSize := outSize
              Reduction := CalculateReduction inSize outSize
              Success := true }

/-- api.ImageAPI.CompressImage (api.go, lines 27–41): resolve the
format, then dispatch.  On a resolution failure the Go function returns
a literal nil result pointer together with the error; `none` models that
nil pointer.  The per-path environment supplies the dispatched
compressor's collaborator outcomes. -/
def CompressImage (env : String → FsEnv) (inputPath : String)
    (options : CompressionOptions) : Option CompressionResult :=
  match GetImageFormat inputPath with
  | Except.error _ => none
  | Except.ok ImageFormat.jpeg => some (jpegCompress (env inputPath) inputPath options)
  | Except.ok ImageFormat.png => some (pngCompress (env inputPath) inputPath options)

/-- api.BatchResult (api.go). -/
structure BatchResult where
  Results : List CompressionResult
  TotalInput : Int
  TotalOutput : Int
  TotalReduction : ℚ
  SuccessCount : Int
  FailCount : Int
deriving DecidableEq

/-- A run-time fault of the batch loop.  `nilResult` is the nil-pointer
dereference of `result.Success` in the worker body when CompressImage
returned a nil result: a Go panic that crashes the whole process. -/
inductive BatchPanic where
  | nilResult
deriving DecidableEq

/-- The body of one BatchCompress worker (api.go, lines 88–112), as the
lock-serialised fold step on the shared aggregate: the result is
appended, then its `Success` field is read to update the counters and
totals.  Reading `Success` off the nil result of an unresolvable path is
the panic. -/
def batchStep (env : String → FsEnv) (options : CompressionOptions)
    (acc : BatchResult) (inputPath : String) : Except BatchPanic BatchResult :=
  match CompressImage env inputPath options with
  | none => Except.error BatchPanic.nilResult
  | some r =>
    Except.ok
      { acc with
        Results := acc.Results ++ [r]
        SuccessCount := acc.SuccessCount + (if r.Success then 1 else 0)
        FailCount := acc.FailCount + (if r.Success then 0 else 1)
        TotalInput := acc.TotalInput + (if r.Success then r.InputSize else 0)
        TotalOutput := acc.TotalOutput + (if r.Success then r.OutputSize else 0) }

/-- The workers' lock-serialised aggregation over the whole path list.
Under the mutex every update is atomic and the folded quantities
(append, counters, sums) are order-commutative, so completion order is
modelled as input order. -/
def batchLoop (env : String → FsEnv) (options : CompressionOptions) :
    List String → BatchResult → Except BatchPanic BatchResult
  | [], acc => Except.ok acc
  | p :: rest, acc =>
    match batchStep env options acc p with
    | Except.error e => Except.error e
    | Except.ok acc2 => batchLoop env options rest acc2

/-- The empty aggregate BatchCompress starts from (api.go, lines 77–79). -/
def emptyBatch : BatchResult where
  Results := []
  TotalInput := 0
  TotalOutput := 0
  TotalReduction := 0
  SuccessCount := 0
  FailCount := 0

/-- api.ImageAPI.BatchCompress (api.go, lines 76–121): run every path
through a worker, then compute the overall reduction from the totals
when any successful input bytes were counted. -/
def BatchCompress (env : String → FsEnv) (inputPaths : List String)
    (options : CompressionOptions) : Except BatchPanic BatchResult :=
  match batchLoop env options inputPaths emptyBatch with
  | Except.error e => Except.error e
  | Except.ok acc =>
    Except.ok
      { acc with
        TotalReduction :=
          if 0 < acc.TotalInput then CalculateReduction acc.TotalInput acc.TotalOutput
          else acc.TotalReduction }

/-- Input bytes of the successful results. -/
def sumSuccessInput (rs : List CompressionResult) : Int :=
  (rs.filter (fun r => r.Success)).foldl (fun a r => a + r.InputSize) 0

/-- Output bytes of the successful results. -/
def sumSuccessOutput (rs : List CompressionResult) : Int :=
  (rs.filter (fun r => r.Success)).foldl (fun a r => a + r.OutputSize) 0

/-- The capacity of the admission gate: api.go line 89 makes the
semaphore channel with exactly 4 slots. -/
def maxConcurrentCompressions : Nat := 4

/-- The phase of one BatchCompress worker goroutine with respect to the
admission gate: not yet admitted, holding a slot (the file's pipeline is
in flight), or finished having released its slot. -/
inductive WorkerPhase where
  | idle
  | running
  | done
deriving DecidableEq

/-- The number of workers currently holding an admission-gate slot. -/
def runningCount : List WorkerPhase → Nat
  | [] => 0
  | WorkerPhase.running :: rest => runningCount rest + 1
  | _ :: rest => runningCount rest

/-- One scheduler step of the worker pool.  `acquire` is the send on the
buffered semaphore channel: it can fire only while fewer than 4 slots
are taken (a send on a full 4-slot channel blocks).  `release` is the
deferred receive that runs when the worker's pipeline has finished. -/
inductive PoolStep : List WorkerPhase → List WorkerPhase → Prop
  | acquire (pre post : List WorkerPhase) :
      runningCount (pre ++ WorkerPhase.idle :: post) < maxConcurrentCompressions →
      PoolStep (pre ++ WorkerPhase.idle :: post) (pre ++ WorkerPhase.running :: post)
  | release (pre post : List WorkerPhase) :
      PoolStep (pre ++ WorkerPhase.running :: post) (pre ++ WorkerPhase.done :: post)

/-- The pool states reachable from `n` workers awaiting admission. -/
def PoolReachable (n : Nat) (s : List WorkerPhase) : Prop :=
  Relation.ReflTransGen PoolStep (List.replicate n WorkerPhase.idle) s

/-! ## Helper lemmas -/

/-- On non-negative rationals, Go's truncation toward zero is the floor. -/
theorem goTrunc_eq_floor (q : ℚ) (h : 0 ≤ q) : goTrunc q = ⌊q⌋ := by
  simp [goTrunc, h]

/-! ## The claims -/

/-- C10: CalculateReduction explicitly guards the division by the
original size: a zero-byte original yields a reduction of 0 for every
compressed size, never a division fault. -/
theorem calculateReduction_zero_original (c : Int) : CalculateReduction 0 c = 0 := by
  simp [CalculateReduction]

/-- C6: GenerateOutputPath returns the output directory when one is set
and the input file's directory otherwise, joined with the input base
name without its extension, then the suffix, then the original
extension; and, being a pure function, two calls with identical inputs
yield an identical path. -/
theorem generateOutputPath_spec_and_pure (inputPath : String) (o : CompressionOptions) :
    GenerateOutputPath inputPath o = outputPathSpec inputPath o ∧
      ∀ p2 o2, inputPath = p2 → o = o2 →
        GenerateOutputPath inputPath o = GenerateOutputPath p2 o2 := by
  constructor
  · by_cases h : o.OutputDir = String.mk [] <;>
      simp [GenerateOutputPath, outputPathSpec, h]
  · intro p2 o2 hp ho
    rw [hp, ho]

/-- Witness for C6 at a concrete path and the default options. -/
theorem generateOutputPath_spec_witness :
    GenerateOutputPath "photos/img.jpg" DefaultOptions =
        outputPathSpec "photos/img.jpg" DefaultOptions ∧
      GenerateOutputPath "photos/img.jpg" DefaultOptions =
        GenerateOutputPath "photos/img.jpg" DefaultOptions :=
  ⟨(generateOutputPath_spec_and_pure "photos/img.jpg" DefaultOptions).1,
   (generateOutputPath_spec_and_pure "photos/img.jpg" DefaultOptions).2
     "photos/img.jpg" DefaultOptions rfl rfl⟩

/-- C7: on a readable input of size S both estimators return exactly the
closed-form heuristic of the specification: S × (0.1 + 0.4 × quality/100)
× resizeAreaFactor for JPEG and S × (1 − 0.05 × compressionLevel) ×
resizeAreaFactor for PNG, with resizeAreaFactor = (percent/100)² while a
percent resize is active and 1 otherwise, truncated to integer bytes. -/
theorem estimateSize_matches_spec (S : Int) (o : CompressionOptions) :
    jpegEstimateSize (some S) o = Except.ok (jpegEstimateSpec S o) ∧
      pngEstimateSize (some S) o = Except.ok (pngEstimateSpec S o) := by
  constructor
  · simp only [jpegEstimateSize, jpegEstimateCore, jpegEstimateSpec, estimateResizeFactor]
    split_ifs <;> · congr 1; ring_nf
  · simp only [pngEstimateSize, pngEstimateCore, pngEstimateSpec, estimateResizeFactor]
    split_ifs <;> · congr 1; ring_nf

/-- Options that request an explicit resize to the source's own
dimensions (100×100). -/
def sameDimsOptions : CompressionOptions :=
  { DefaultOptions with ResizeWidth := 100, ResizeHeight := 100 }

/-- Counterexample to C3: with resizeWidth and resizeHeight set to
exactly the 100×100 source dimensions the computed target equals the
source, yet applyResize still invokes the resampler instead of passing
the unmodified decoded grid through. -/
theorem applyResize_resamples_at_source_dims :
    targetDims 100 100 sameDimsOptions = (100, 100) ∧
      applyResize (GoImage.decoded 100 100) sameDimsOptions ≠ GoImage.decoded 100 100 := by
  constructor
  · decide
  · decide

/-- C3 as amended: the resampling step is skipped — the grid handed on
is the unmodified decoded image — exactly when no resize rule fires:
resizePercent is not strictly between 0 and 100 and neither resizeWidth
nor resizeHeight is positive.  When explicit dimensions merely equal the
source dimensions the resampler is still invoked. -/
theorem applyResize_skip_iff (w h : Int) (o : CompressionOptions) :
    applyResize (GoImage.decoded w h) o = GoImage.decoded w h ↔
      ¬(0 < o.ResizePercent ∧ o.ResizePercent < 100) ∧
        ¬(0 < o.ResizeWidth ∨ 0 < o.ResizeHeight) := by
  simp only [applyResize, GoImage.width, GoImage.height]
  split_ifs with h1 h2 h3 h4 <;> simp_all

/-- C2: on every positive source geometry the dimensions applyResize
computes follow the specification's three-rule precedence, first match
wins: percent in (0, 100) scales both axes by percent/100 with flooring
(percent ≥ 100 or ≤ 0 falling through); else a positive explicit axis is
taken exactly when its partner is set too and the partner is completed
proportionally when it is unset; else the source dimensions stand. -/
theorem targetDims_matches_spec (w h : Int) (o : CompressionOptions)
    (hw : 0 < w) (hh : 0 < h) :
    targetDims w h o = resizeRuleSpec w h o := by
  have hwq : (0 : ℚ) < (w : ℚ) := by exact_mod_cast hw
  have hhq : (0 : ℚ) < (h : ℚ) := by exact_mod_cast hh
  by_cases hp : 0 < o.ResizePercent ∧ o.ResizePercent < 100
  · obtain ⟨hp1, hp2⟩ := hp
    simp only [targetDims, applyResize, resizeRuleSpec, if_pos (And.intro hp1 hp2),
      GoImage.width, GoImage.height]
    rw [goTrunc_eq_floor _ (div_nonneg (mul_nonneg hwq.le hp1.le) (by norm_num)),
      goTrunc_eq_floor _ (div_nonneg (mul_nonneg hhq.le hp1.le) (by norm_num))]
  · by_cases hdim : 0 < o.ResizeWidth ∨ 0 < o.ResizeHeight
    · by_cases hw0 : o.ResizeWidth = 0
      · have hrh : 0 < o.ResizeHeight := by
          rcases hdim with hcase | hcase
          · omega
          · exact hcase
        have hrhq : (0 : ℚ) < (o.ResizeHeight : ℚ) := by exact_mod_cast hrh
        have hne : ¬(o.ResizeWidth ≠ 0 ∧ o.ResizeHeight ≠ 0) := by
          intro hand
          exact hand.1 hw0
        simp only [targetDims, applyResize, resizeRuleSpec, if_neg hp, if_pos hdim,
          if_pos hw0, if_neg hne, if_neg hrh.ne', GoImage.width, GoImage.height]
        rw [goTrunc_eq_floor _ (by positivity), mul_div_assoc]
      · by_cases hh0 : o.ResizeHeight = 0
        · have hrw : 0 < o.ResizeWidth := by
            rcases hdim with hcase | hcase
            · exact hcase
            · omega
          have hrwq : (0 : ℚ) < (o.ResizeWidth : ℚ) := by exact_mod_cast hrw
          have hne : ¬(o.ResizeWidth ≠ 0 ∧ o.ResizeHeight ≠ 0) := by
            intro hand
            exact hand.2 hh0
          simp only [targetDims, applyResize, resizeRuleSpec, if_neg hp, if_pos hdim,
            if_neg hw0, if_pos hh0, if_neg hne, GoImage.width, GoImage.height]
          rw [goTrunc_eq_floor _ (by positivity), mul_div_assoc]
        · have hand : o.ResizeWidth ≠ 0 ∧ o.ResizeHeight ≠ 0 := ⟨hw0, hh0⟩
          simp only [targetDims, applyResize, resizeRuleSpec, if_neg hp, if_pos hdim,
            if_neg hw0, if_neg hh0, if_pos hand, GoImage.width, GoImage.height]
    · simp only [targetDims, applyResize, resizeRuleSpec, if_neg hp, if_neg hdim,
        GoImage.width, GoImage.height]

/-- Options requesting resizeWidth = 400 with resizeHeight unset. -/
def widthOnlyOptions : CompressionOptions := { DefaultOptions with ResizeWidth := 400 }

/-- Witness for C2: an 800×600 source with resizeWidth = 400 and
resizeHeight = 0 follows the precedence and in particular yields
height 300. -/
theorem targetDims_matches_spec_witness :
    targetDims 800 600 widthOnlyOptions = resizeRuleSpec 800 600 widthOnlyOptions ∧
      targetDims 800 600 widthOnlyOptions = (400, 300) := by
  refine ⟨targetDims_matches_spec 800 600 widthOnlyOptions (by decide) (by decide), ?_⟩
  have h : ((600 : ℚ) * ((400 : Int) / ((800 : Int) : ℚ))) = 300 := by norm_num
  simp only [targetDims, applyResize, widthOnlyOptions, DefaultOptions,
    GoImage.width, GoImage.height]
  norm_num [goTrunc]

/-- On a positive original size, CalculateReduction is exactly the
unclamped percentage formula, and it goes negative as soon as the
compressed size exceeds the original. -/
theorem calculateReduction_pos_original (I O : Int) (hI : 0 < I) :
    CalculateReduction I O = (1 - (O : ℚ) / (I : ℚ)) * 100 ∧
      (I < O → CalculateReduction I O < 0) := by
  have hI0 : I ≠ 0 := hI.ne'
  have hIq : (0 : ℚ) < (I : ℚ) := by exact_mod_cast hI
  constructor
  · simp [CalculateReduction, hI0]
  · intro hlt
    have h1 : (1 : ℚ) < (O : ℚ) / (I : ℚ) := by
      rw [lt_div_iff₀ hIq, one_mul]
      exact_mod_cast hlt
    simp only [CalculateReduction, if_neg hI0]
    nlinarith

/-- C5: both compressors populate the Error field exactly on the failed
results: for every collaborator outcome, path and options, the produced
CompressionResult has a non-nil Error if and only if Success is false
(every step failure short-circuits to such a result). -/
theorem compress_error_iff_failure (env : FsEnv) (p : String) (o : CompressionOptions) :
    ((jpegCompress env p o).Error ≠ none ↔ (jpegCompress env p o).Success = false) ∧
      ((pngCompress env p o).Error ≠ none ↔ (pngCompress env p o).Success = false) := by
  obtain ⟨si, de, mk, cr, en, so⟩ := env
  constructor <;>
  · cases si <;> cases de <;> cases so <;>
      simp only [jpegCompress, pngCompress, initResult] <;>
      (try split_ifs) <;> simp

/-- C4: every successful result of either compressor with positive
recorded input size carries exactly the unclamped reduction
(1 − OutputSize/InputSize) × 100 computed from its own recorded sizes,
and the reduction is reported negative whenever the output outgrew the
input. -/
theorem success_reduction_exact (env : FsEnv) (p : String) (o : CompressionOptions)
    (r : CompressionResult) (hr : r = jpegCompress env p o ∨ r = pngCompress env p o)
    (hs : r.Success = true) (hI : 0 < r.InputSize) :
    r.Reduction = (1 - (r.OutputSize : ℚ) / (r.InputSize : ℚ)) * 100 ∧
      (r.InputSize < r.OutputSize → r.Reduction < 0) := by
  rcases hr with rfl | rfl <;>
  · obtain ⟨si, de, mk, cr, en, so⟩ := env
    cases si <;> cases de <;> cases so <;>
      simp only [jpegCompress, pngCompress, initResult] at hs hI ⊢ <;>
      (try split_ifs at hs hI ⊢) <;>
      (try exact calculateReduction_pos_original _ _ hI) <;>
      simp at hs

/-- Collaborator outcomes of a run whose re-encoded output (150 bytes)
outgrew its 100-byte input. -/
def growEnv : FsEnv where
  statInput := some 100
  decode := some (GoImage.decoded 10 10)
  mkdirOk := true
  createOk := true
  encodeOk := true
  statOutput := some 150

/-- Witness for C4: a successful 100-byte → 150-byte run reports the
exact formula value, the negative −50%. -/
theorem success_reduction_exact_witness :
    (jpegCompress growEnv "a.jpg" DefaultOptions).Success = true ∧
      (jpegCompress growEnv "a.jpg" DefaultOptions).Reduction =
        (1 - ((jpegCompress growEnv "a.jpg" DefaultOptions).OutputSize : ℚ) /
          ((jpegCompress growEnv "a.jpg" DefaultOptions).InputSize : ℚ)) * 100 ∧
      (jpegCompress growEnv "a.jpg" DefaultOptions).Reduction < 0 := by
  have h := success_reduction_exact growEnv "a.jpg" DefaultOptions
    (jpegCompress growEnv "a.jpg" DefaultOptions) (Or.inl rfl) (by decide) (by decide)
  exact ⟨by decide, h.1, h.2 (by decide)⟩

/-- Appending one result adds its input bytes to the successful-input
sum exactly when it succeeded. -/
theorem sumSuccessInput_append (rs : List CompressionResult) (r : CompressionResult) :
    sumSuccessInput (rs ++ [r]) =
      sumSuccessInput rs + (if r.Success then r.InputSize else 0) := by
  by_cases h : r.Success <;>
    simp [sumSuccessInput, List.filter_append, List.foldl_append, h]

/-- Appending one result adds its output bytes to the successful-output
sum exactly when it succeeded. -/
theorem sumSuccessOutput_append (rs : List CompressionResult) (r : CompressionResult) :
    sumSuccessOutput (rs ++ [r]) =
      sumSuccessOutput rs + (if r.Success then r.OutputSize else 0) := by
  by_cases h : r.Success <;>
    simp [sumSuccessOutput, List.filter_append, List.foldl_append, h]

/-- The successful and failed results partition the result list. -/
theorem filter_success_partition (rs : List CompressionResult) :
    (rs.filter (fun r => r.Success)).length +
      (rs.filter (fun r => !r.Success)).length = rs.length := by
  induction rs with
  | nil => rfl
  | cons r t ih =>
    by_cases h : r.Success <;> simp [List.filter, h] <;> omega

/-- The aggregate invariant BatchCompress's lock-serialised updates
maintain: totals are the sums over the successful results collected so
far and the counters are the two partition sizes. -/
def batchInv (acc : BatchResult) : Prop :=
  acc.TotalInput = sumSuccessInput acc.Results ∧
  acc.TotalOutput = sumSuccessOutput acc.Results ∧
  acc.SuccessCount = ((acc.Results.filter (fun r => r.Success)).length : Int) ∧
  acc.FailCount = ((acc.Results.filter (fun r => !r.Success)).length : Int)

/-- A completing batch loop preserves the aggregate invariant and
appends exactly one result per input path. -/
theorem batchLoop_ok (env : String → FsEnv) (o : CompressionOptions) :
    ∀ (paths : List String) (acc br : BatchResult),
      batchLoop env o paths acc = Except.ok br → batchInv acc →
      batchInv br ∧ br.Results.length = acc.Results.length + paths.length := by
  intro paths
  induction paths with
  | nil =>
    intro acc br h hinv
    simp only [batchLoop] at h
    cases h
    exact ⟨hinv, by simp⟩
  | cons p rest ih =>
    intro acc br h hinv
    simp only [batchLoop, batchStep] at h
    cases hc : CompressImage env p o with
    | none => rw [hc] at h; cases h
    | some r =>
      rw [hc] at h
      obtain ⟨hinv1, hinv2, hinv3, hinv4⟩ := hinv
      have hstep :
          batchInv
            { acc with
              Results := acc.Results ++ [r]
              SuccessCount := acc.SuccessCount + (if r.Success then 1 else 0)
              FailCount := acc.FailCount + (if r.Success then 0 else 1)
              TotalInput := acc.TotalInput + (if r.Success then r.InputSize else 0)
              TotalOutput := acc.TotalOutput + (if r.Success then r.OutputSize else 0) } := by
        refine ⟨?_, ?_, ?_, ?_⟩ <;>
          by_cases hr : r.Success <;>
            simp [sumSuccessInput_append, sumSuccessOutput_append, List.filter_append,
              hinv1, hinv2, hinv3, hinv4, hr]
      have hres := ih _ br h hstep
      refine ⟨hres.1, ?_⟩
      have hlen := hres.2
      simp at hlen ⊢
      omega

/-- C8: whenever a batch run completes, the totals are the sums of the
recorded sizes over exactly the successful results, the success and
failure counters partition the results (one per input path), and the
overall reduction is the unclamped formula on the totals whenever any
successful input bytes were counted. -/
theorem batch_totals (env : String → FsEnv) (paths : List String)
    (o : CompressionOptions) (br : BatchResult)
    (h : BatchCompress env paths o = Except.ok br) :
    br.TotalInput = sumSuccessInput br.Results ∧
    br.TotalOutput = sumSuccessOutput br.Results ∧
    br.SuccessCount = ((br.Results.filter (fun r => r.Success)).length : Int) ∧
    br.FailCount = ((br.Results.filter (fun r => !r.Success)).length : Int) ∧
    br.SuccessCount + br.FailCount = (paths.length : Int) ∧
    (0 < br.TotalInput →
      br.TotalReduction = (1 - (br.TotalOutput : ℚ) / (br.TotalInput : ℚ)) * 100) := by
  simp only [BatchCompress] at h
  cases hc : batchLoop env o paths emptyBatch with
  | error e => rw [hc] at h; cases h
  | ok acc =>
    rw [hc] at h
    have hbase : batchInv emptyBatch := by
      refine ⟨rfl, rfl, rfl, rfl⟩
    have hres := batchLoop_ok env o paths emptyBatch acc hc hbase
    obtain ⟨⟨h1, h2, h3, h4⟩, hlen⟩ := hres
    cases h
    have hlen2 : acc.Results.length = paths.length := by
      simpa [emptyBatch] using hlen
    refine ⟨h1, h2, h3, h4, ?_, ?_⟩
    · rw [h3, h4]
      have := filter_success_partition acc.Results
      rw [hlen2] at this
      exact_mod_cast this
    · intro hpos
      simp only at hpos ⊢
      rw [if_pos hpos]
      exact (calculateReduction_pos_original _ _ hpos).1

/-- Per-path collaborator outcomes for a two-file batch: "a.jpg"
compresses 100 → 40 bytes, every other path fails to decode. -/
def mixedBatchEnv : String → FsEnv := fun p =>
  if p = "a.jpg" then
    { statInput := some 100
      decode := some (GoImage.decoded 8 8)
      mkdirOk := true
      createOk := true
      encodeOk := true
      statOutput := some 40 }
  else
    { statInput := some 50
      decode := none
      mkdirOk := true
      createOk := true
      encodeOk := true
      statOutput := none }

/-- The aggregate of the concrete two-file batch run. -/
def mixedBatchResult : BatchResult :=
  (BatchCompress mixedBatchEnv ["a.jpg", "b.png"] DefaultOptions).toOption.getD emptyBatch

/-- Witness for C8: the two-file batch with one decode failure
completes, its totals are the sums over the successful results, and its
counters partition the two results. -/
theorem batch_totals_witness :
    BatchCompress mixedBatchEnv ["a.jpg", "b.png"] DefaultOptions =
        Except.ok mixedBatchResult ∧
      mixedBatchResult.TotalInput = sumSuccessInput mixedBatchResult.Results ∧
      mixedBatchResult.SuccessCount + mixedBatchResult.FailCount =
        (([ "a.jpg", "b.png" ] : List String).length : Int) := by
  have h := batch_totals mixedBatchEnv ["a.jpg", "b.png"] DefaultOptions
    mixedBatchResult rfl
  exact ⟨rfl, h.1, h.2.2.2.2.1⟩

/-- C1 failing input: a batch containing one path with an unsupported
extension.  GetImageFormat rejects ".gif", CompressImage therefore
returns a nil result, and the worker's read of `result.Success`
dereferences that nil pointer: the run ends in a panic that kills the
whole batch instead of recording one failed result. -/
theorem batch_unsupported_extension_panics :
    GetImageFormat "photo.gif" = Except.error "unsupported image format: .gif" ∧
      BatchCompress (fun _ => growEnv) ["photo.gif"] DefaultOptions =
        Except.error BatchPanic.nilResult :=
  ⟨rfl, rfl⟩

/-- Concatenation splits the count of slot-holding workers. -/
theorem runningCount_append (a b : List WorkerPhase) :
    runningCount (a ++ b) = runningCount a + runningCount b := by
  induction a with
  | nil => simp [runningCount]
  | cons w t ih =>
    cases w with
    | idle => simp [runningCount, ih]
    | running =>
      simp [runningCount, ih]
      omega
    | done => simp [runningCount, ih]

/-- A pool of workers that all await admission holds no slot. -/
theorem runningCount_replicate_idle (n : Nat) :
    runningCount (List.replicate n WorkerPhase.idle) = 0 := by
  induction n with
  | zero => rfl
  | succ k ih => simp [List.replicate, runningCount, ih]

/-- C9: in every state the batch worker pool can reach, at most 4
workers hold an admission-gate slot — at no point are more than 4
compressions in flight, because a worker compresses only between its
acquire and its release of one of the 4 slots. -/
theorem pool_admission_bound (n : Nat) (s : List WorkerPhase)
    (h : PoolReachable n s) : runningCount s ≤ maxConcurrentCompressions := by
  unfold PoolReachable at h
  induction h with
  | refl => simp [runningCount_replicate_idle, maxConcurrentCompressions]
  | tail hsteps hstep ih =>
    cases hstep with
    | acquire pre post hlt =>
      have e1 : runningCount (pre ++ WorkerPhase.idle :: post) =
          runningCount pre + runningCount post := by
        simp [runningCount_append, runningCount]
      have e2 : runningCount (pre ++ WorkerPhase.running :: post) =
          runningCount pre + (runningCount post + 1) := by
        simp [runningCount_append, runningCount]
      rw [e1] at hlt
      rw [e2]
      simp only [maxConcurrentCompressions] at hlt ⊢
      omega
    | release pre post =>
      have e1 : runningCount (pre ++ WorkerPhase.running :: post) =
          runningCount pre + (runningCount post + 1) := by
        simp [runningCount_append, runningCount]
      have e2 : runningCount (pre ++ WorkerPhase.done :: post) =
          runningCount pre + runningCount post := by
        simp [runningCount_append, runningCount]
      rw [e1] at ih
      rw [e2]
      simp only [maxConcurrentCompressions] at ih ⊢
      omega

/-- Witness for C9: from 20 idle workers, one admission step reaches a
state whose slot count obeys the bound. -/
theorem pool_admission_bound_witness :
    runningCount (WorkerPhase.running :: List.replicate 19 WorkerPhase.idle) ≤
      maxConcurrentCompressions :=
  pool_admission_bound 20 (WorkerPhase.running :: List.replicate 19 WorkerPhase.idle)
    (Relation.ReflTransGen.single
      (PoolStep.acquire [] (List.replicate 19 WorkerPhase.idle) (by decide)))
